import Mathlib

/-!
Shallow embedding of the MCPServer inventory backend
(`services/mcp-backend/src/tools/{products,stock,orders}.py`).

The database state is a record of lists mirroring the persisted tables
(`products`, `stock`, `stock_movements`, `orders`, `order_items`,
`reservations`).  Serial (auto-generated) identifiers are modelled with
counters carried in the state.  Each MCP tool becomes a pure function
`DB → args → DB × Result`; a Python `raise ValueError` (validation) and the
business-error payloads `{ok: False, error: ...}` are both explicit result
constructors, and in every error branch the returned state is the input
state (the enclosing SQL transaction rolls back / is never entered).
-/

namespace MCPServer

/-- Order status values stored in `orders.status`. -/
inductive Status where
  | PENDING
  | RESERVED
  | PAID
  | CANCELLED
  | FAILED
deriving DecidableEq, Repr

/-- A row of the `products` table. -/
structure Product where
  id : Nat
  sku : String
  name : String
deriving DecidableEq, Repr

/-- A row of the `stock` table (`product_id` is unique). -/
structure StockRow where
  productId : Nat
  quantity : Int
deriving DecidableEq, Repr

/-- A row of the append-only `stock_movements` table. -/
structure StockMovement where
  productId : Nat
  delta : Int
  reason : String
deriving DecidableEq, Repr

/-- A row of the `orders` table. -/
structure Order where
  id : Nat
  status : Status
deriving DecidableEq, Repr

/-- A row of the `order_items` table. -/
structure OrderItem where
  orderId : Nat
  sku : String
  qty : Int
deriving DecidableEq, Repr

/-- A row of the `reservations` table.  `releasedAt = true` models a
non-NULL `released_at` timestamp. -/
structure Reservation where
  id : Nat
  orderId : Nat
  sku : String
  qty : Int
  active : Bool
  releasedAt : Bool
deriving DecidableEq, Repr

/-- The whole database, plus counters for generated identifiers. -/
structure DB where
  products : List Product
  stock : List StockRow
  movements : List StockMovement
  orders : List Order
  orderItems : List OrderItem
  reservations : List Reservation
  nextProductId : Nat
  nextOrderId : Nat
  nextReservationId : Nat
deriving DecidableEq, Repr

def emptyDB : DB :=
  { products := [], stock := [], movements := [], orders := [],
    orderItems := [], reservations := [],
    nextProductId := 0, nextOrderId := 0, nextReservationId := 0 }

/-- `SELECT ... FROM products WHERE sku = $1` (first matching row). -/
def findProduct (db : DB) (sku : String) : Option Product :=
  db.products.find? (fun p => p.sku == sku)

/-- `SELECT ... FROM stock WHERE product_id = $1`. -/
def findStock (db : DB) (pid : Nat) : Option StockRow :=
  db.stock.find? (fun s => s.productId == pid)

/-- `SELECT ... FROM orders WHERE id = $1`. -/
def findOrder (db : DB) (oid : Nat) : Option Order :=
  db.orders.find? (fun o => o.id == oid)

/-- `SELECT ... FROM order_items WHERE order_id = $1 LIMIT 1`. -/
def findItem (db : DB) (oid : Nat) : Option OrderItem :=
  db.orderItems.find? (fun it => it.orderId == oid)

/-- `SELECT ... FROM reservations WHERE order_id = $1 AND active = TRUE`. -/
def findActiveReservation (db : DB) (oid : Nat) : Option Reservation :=
  db.reservations.find? (fun r => r.orderId == oid && r.active)

/-- `UPDATE stock SET quantity = q WHERE product_id = pid`. -/
def setStockQty (stock : List StockRow) (pid : Nat) (q : Int) : List StockRow :=
  stock.map (fun s => if s.productId == pid then { s with quantity := q } else s)

/-- `UPDATE orders SET status = st WHERE id = oid`. -/
def setOrderStatus (orders : List Order) (oid : Nat) (st : Status) : List Order :=
  orders.map (fun o => if o.id == oid then { o with status := st } else o)

/-! ### `products.py` -/

inductive CreateProductRes where
  /-- Python `raise ValueError("initial_qty must be >= 0")`. -/
  | validationError
  | ok (product : Product) (initialQty : Int)
deriving DecidableEq, Repr

/-- `create_product(sku, name, initial_qty)`: upsert the product (update the
name on SKU conflict), upsert the stock row keeping the `GREATEST` of the
existing and the new quantity, and log an `"initial"` movement whenever
`initial_qty > 0`. -/
def create_product (db : DB) (sku name : String) (initialQty : Int) :
    DB × CreateProductRes :=
  if initialQty < 0 then (db, .validationError)
  else
    let upserted : DB × Product :=
      match findProduct db sku with
      | some p =>
          ({ db with products :=
              db.products.map (fun q =>
                if q.sku == sku then { q with name := name } else q) },
           { p with name := name })
      | none =>
          let p : Product := { id := db.nextProductId, sku := sku, name := name }
          ({ db with products := db.products ++ [p],
                     nextProductId := db.nextProductId + 1 }, p)
    let db1 := upserted.1
    let prod := upserted.2
    let db2 :=
      match findStock db1 prod.id with
      | some _ =>
          { db1 with stock :=
              db1.stock.map (fun s =>
                if s.productId == prod.id then
                  { s with quantity := max s.quantity initialQty }
                else s) }
      | none =>
          { db1 with stock := db1.stock ++ [{ productId := prod.id, quantity := initialQty }] }
    let db3 :=
      if initialQty > 0 then
        { db2 with movements :=
            db2.movements ++ [{ productId := prod.id, delta := initialQty, reason := "initial" }] }
      else db2
    (db3, .ok prod initialQty)

/-! ### `stock.py` -/

inductive AddStockRes where
  /-- `delta == 0`: `{ok: True, quantity_change: 0}` before any transaction. -/
  | zeroDelta
  | skuNotFound
  | insufficientStock (currentQty requestedDelta : Int)
  | ok (before afterQty delta : Int) (reason : String)
deriving DecidableEq, Repr

/-- `add_stock(sku, delta, reason)`: adjust the quantity by `delta`, refusing
to drive it below zero, and append one audit movement on success. -/
def add_stock (db : DB) (sku : String) (delta : Int) (reason : String) :
    DB × AddStockRes :=
  if delta == 0 then (db, .zeroDelta)
  else
    match findProduct db sku with
    | none => (db, .skuNotFound)
    | some prod =>
        let current := ((findStock db prod.id).map StockRow.quantity).getD 0
        let newQty := current + delta
        if newQty < 0 then (db, .insufficientStock current delta)
        else
          ({ db with
              stock := setStockQty db.stock prod.id newQty,
              movements := db.movements ++
                [{ productId := prod.id, delta := delta, reason := reason }] },
           .ok current newQty delta reason)

/-! ### `orders.py` -/

inductive CreateOrderRes where
  /-- Python `raise ValueError("qty must be > 0")`. -/
  | validationError
  | ok (orderId : Nat) (status : Status) (sku : String) (qty : Int)
deriving DecidableEq, Repr

/-- `create_order(sku, qty)`: insert a PENDING order and its single item.
No product-existence check is performed on `sku`. -/
def create_order (db : DB) (sku : String) (qty : Int) : DB × CreateOrderRes :=
  if qty ≤ 0 then (db, .validationError)
  else
    let oid := db.nextOrderId
    ({ db with
        orders := db.orders ++ [{ id := oid, status := .PENDING }],
        orderItems := db.orderItems ++ [{ orderId := oid, sku := sku, qty := qty }],
        nextOrderId := oid + 1 },
     .ok oid .PENDING sku qty)

inductive ReserveRes where
  | orderNotFound
  | orderNotReservable (status : Status)
  | orderHasNoItems
  | skuNotFound (sku : String)
  | insufficientStock (currentQty requestedQty : Int)
  | ok (orderId : Nat) (status : Status) (reservation : Reservation)
deriving DecidableEq, Repr

/-- `reserve_for_order(order_id)`: lock the order, refuse terminal statuses,
resolve the item and the product, check stock, then decrement stock, log a
movement, insert an active reservation and set the status to RESERVED. -/
def reserve_for_order (db : DB) (oid : Nat) : DB × ReserveRes :=
  match findOrder db oid with
  | none => (db, .orderNotFound)
  | some o =>
      if o.status == .PAID || o.status == .CANCELLED || o.status == .FAILED then
        (db, .orderNotReservable o.status)
      else
        match findItem db oid with
        | none => (db, .orderHasNoItems)
        | some item =>
            match findProduct db item.sku with
            | none => (db, .skuNotFound item.sku)
            | some prod =>
                let current := ((findStock db prod.id).map StockRow.quantity).getD 0
                if current < item.qty then (db, .insufficientStock current item.qty)
                else
                  let res : Reservation :=
                    { id := db.nextReservationId, orderId := oid, sku := item.sku,
                      qty := item.qty, active := true, releasedAt := false }
                  ({ db with
                      stock := setStockQty db.stock prod.id (current - item.qty),
                      movements := db.movements ++
                        [{ productId := prod.id, delta := -item.qty,
                           reason := "reserve_order:" ++ toString oid }],
                      reservations := db.reservations ++ [res],
                      orders := setOrderStatus db.orders oid .RESERVED,
                      nextReservationId := db.nextReservationId + 1 },
                   .ok oid .RESERVED res)

inductive ReleaseRes where
  /-- `{ok: True, released: False}` — nothing to release. -/
  | notReleased
  /-- `{ok: True, released: True, status: "CANCELLED"}`. -/
  | released (status : Status)
  /-- Models the Python `TypeError` crash on `prod["id"]` when the
  reservation's SKU has no product row (unreachable through the tools). -/
  | productRowMissing
deriving DecidableEq, Repr

/-- `release_stock(order_id)`: if an active reservation exists, add its
quantity back to stock, deactivate it (stamping `released_at`) and set the
order status to CANCELLED; otherwise do nothing.  No order-status check is
made and no stock movement is recorded. -/
def release_stock (db : DB) (oid : Nat) : DB × ReleaseRes :=
  match findActiveReservation db oid with
  | none => (db, .notReleased)
  | some r =>
      match findProduct db r.sku with
      | none => (db, .productRowMissing)
      | some prod =>
          let current := ((findStock db prod.id).map StockRow.quantity).getD 0
          ({ db with
              stock := setStockQty db.stock prod.id (current + r.qty),
              reservations := db.reservations.map (fun x =>
                if x.id == r.id then { x with active := false, releasedAt := true } else x),
              orders := setOrderStatus db.orders oid .CANCELLED },
           .released .CANCELLED)

inductive MarkRes where
  | ok (status : Status)
deriving DecidableEq, Repr

/-- `mark_paid(order_id)`: `UPDATE orders SET status = 'PAID' WHERE id = $1`
and report success — no existence or status check. -/
def mark_paid (db : DB) (oid : Nat) : DB × MarkRes :=
  ({ db with orders := setOrderStatus db.orders oid .PAID }, .ok .PAID)

/-- `mark_failed(order_id)`: `UPDATE orders SET status = 'FAILED' WHERE id = $1`
and report success — no existence or status check, no compensating release. -/
def mark_failed (db : DB) (oid : Nat) : DB × MarkRes :=
  ({ db with orders := setOrderStatus db.orders oid .FAILED }, .ok .FAILED)

/-! ### Operation alphabet and reachable states -/

/-- One invocation of an exposed tool.  `getStock` and `getOrder` are the
read-only tools; they never change the state. -/
inductive Op where
  | createProduct (sku name : String) (initialQty : Int)
  | getStock (sku : String)
  | addStock (sku : String) (delta : Int) (reason : String)
  | createOrder (sku : String) (qty : Int)
  | getOrder (oid : Nat)
  | reserveForOrder (oid : Nat)
  | releaseStock (oid : Nat)
  | markPaid (oid : Nat)
  | markFailed (oid : Nat)
deriving DecidableEq, Repr

/-- State transition of one tool call (results discarded). -/
def step (db : DB) : Op → DB
  | .createProduct sku name q => (create_product db sku name q).1
  | .getStock _ => db
  | .addStock sku d r => (add_stock db sku d r).1
  | .createOrder sku q => (create_order db sku q).1
  | .getOrder _ => db
  | .reserveForOrder oid => (reserve_for_order db oid).1
  | .releaseStock oid => (release_stock db oid).1
  | .markPaid oid => (mark_paid db oid).1
  | .markFailed oid => (mark_failed db oid).1

/-- The state after a sequence of tool calls starting from the empty store. -/
def run (ops : List Op) : DB := ops.foldl step emptyDB

/-! ### Observers -/

/-- The quantity column of the product's stock row, if any. -/
def stockQty (db : DB) (pid : Nat) : Option Int :=
  (findStock db pid).map StockRow.quantity

/-- Number of active reservations attached to an order. -/
def countActiveRes (db : DB) (oid : Nat) : Nat :=
  (db.reservations.filter (fun r => r.orderId == oid && r.active)).length

/-- Sum of all movement deltas recorded for a product. -/
def sumDeltas (movements : List StockMovement) (pid : Nat) : Int :=
  ((movements.filter (fun m => m.productId == pid)).map StockMovement.delta).sum

/-- Ledger identity: every product's quantity equals the sum of its
movement deltas. -/
def ledgerOK (db : DB) : Bool :=
  db.products.all (fun p => stockQty db p.id == some (sumDeltas db.movements p.id))

end MCPServer

namespace MCPServer

/-! ### Concrete traces used to settle the claims -/

/-- Product `"S"` with 10 in stock, an order for 3, reserved once. -/
def reservedTrace : List Op :=
  [.createProduct "S" "W" 10, .createOrder "S" 3, .reserveForOrder 0]

/-- Product `"S"` with 5 in stock, an order for 2, reserved once. -/
def smallTrace : List Op :=
  [.createProduct "S" "W" 5, .createOrder "S" 2, .reserveForOrder 0]

/-- `smallTrace` followed by a release, leaving the order CANCELLED. -/
def cancelledTrace : List Op := smallTrace ++ [.releaseStock 0]

/-- `smallTrace` followed by payment, leaving the order PAID with an
active reservation. -/
def paidTrace : List Op := smallTrace ++ [.markPaid 0]

/-- The claim is false on the code: `reserve_for_order` has no idempotent
re-entry branch.  On order 0 of `reservedTrace` — status RESERVED with one
active reservation and quantity 7 — a second call inserts a second
reservation row, decrements the stock again (7 to 4) and appends another
movement. -/
theorem C1_counterexample :
    (findOrder (run reservedTrace) 0).map Order.status = some .RESERVED ∧
    countActiveRes (run reservedTrace) 0 = 1 ∧
    stockQty (run reservedTrace) 0 = some 7 ∧
    (run (reservedTrace ++ [.reserveForOrder 0])).reservations.length = 2 ∧
    stockQty (run (reservedTrace ++ [.reserveForOrder 0])) 0 = some 4 ∧
    (run (reservedTrace ++ [.reserveForOrder 0])).movements.length = 3 := by
  decide

/-- The claim is false on the code: after reserving twice, order 0 has two
reservation rows with `active = true`. -/
theorem C2_counterexample :
    countActiveRes (run (reservedTrace ++ [.reserveForOrder 0])) 0 = 2 := by
  decide

/-- The claim is false on the code: on order 0 of `cancelledTrace` — status
CANCELLED — `mark_paid` reports success and transitions the order to PAID
instead of failing with `StateConflictError(ORDER_NOT_PAYABLE)`. -/
theorem C3_counterexample :
    (findOrder (run cancelledTrace) 0).map Order.status = some .CANCELLED ∧
    (mark_paid (run cancelledTrace) 0).2 = .ok .PAID ∧
    (findOrder (mark_paid (run cancelledTrace) 0).1 0).map Order.status = some .PAID := by
  decide

/-- The claim is false on the code: after `smallTrace` (stock 3, one active
reservation), `mark_failed` sets the status to FAILED but invokes no
release — the stock stays at 3 instead of returning to 5 and the
reservation stays active. -/
theorem C4_counterexample :
    stockQty (run smallTrace) 0 = some 3 ∧
    countActiveRes (run smallTrace) 0 = 1 ∧
    (findOrder (run (smallTrace ++ [.markFailed 0])) 0).map Order.status = some .FAILED ∧
    stockQty (run (smallTrace ++ [.markFailed 0])) 0 = some 3 ∧
    countActiveRes (run (smallTrace ++ [.markFailed 0])) 0 = 1 := by
  decide

/-- The claim is false on the code: on order 0 of `paidTrace` — status PAID
with an active reservation — `release_stock` succeeds, restores the stock
to 5, deactivates the reservation and overwrites the status with
CANCELLED, instead of failing with
`StateConflictError(CANNOT_RELEASE_PAID_ORDER)` without mutation. -/
theorem C5_counterexample :
    (findOrder (run paidTrace) 0).map Order.status = some .PAID ∧
    (release_stock (run paidTrace) 0).2 = .released .CANCELLED ∧
    stockQty (release_stock (run paidTrace) 0).1 0 = some 5 ∧
    countActiveRes (release_stock (run paidTrace) 0).1 0 = 0 ∧
    (findOrder (release_stock (run paidTrace) 0).1 0).map Order.status = some .CANCELLED := by
  decide

/-- The claim is false on the code: releasing order 0 of `smallTrace`
(RESERVED, active reservation) restores the stock but appends no stock
movement — the movement list is exactly the one from before the release. -/
theorem C6_counterexample :
    (findOrder (run smallTrace) 0).map Order.status = some .RESERVED ∧
    countActiveRes (run smallTrace) 0 = 1 ∧
    stockQty (run cancelledTrace) 0 = some 5 ∧
    (run cancelledTrace).movements = (run smallTrace).movements ∧
    (run cancelledTrace).movements.length = 2 := by
  decide

/-- The claim is false on the code: order 0 of `[createOrder "X" 1]` is
PENDING with no active reservation, yet `release_stock` leaves it PENDING
(reporting `released = false`) instead of transitioning it to CANCELLED. -/
theorem C7_counterexample :
    (findOrder (run [.createOrder "X" 1]) 0).map Order.status = some .PENDING ∧
    findActiveReservation (run [.createOrder "X" 1]) 0 = none ∧
    release_stock (run [.createOrder "X" 1]) 0 = (run [.createOrder "X" 1], .notReleased) ∧
    (findOrder (run ([.createOrder "X" 1] ++ [.releaseStock 0])) 0).map Order.status
      = some .PENDING := by
  decide

/-- The claim is false on the code: after `cancelledTrace` the quantity of
product 0 is 5 but its movement deltas sum to 3 (the release recorded no
movement), so the ledger identity fails. -/
theorem C8_counterexample :
    stockQty (run cancelledTrace) 0 = some 5 ∧
    sumDeltas (run cancelledTrace).movements 0 = 3 ∧
    ledgerOK (run cancelledTrace) = false := by
  decide

end MCPServer

namespace MCPServer

/-! ### Helper lemmas about the row-update operations -/

/-- Updating the stock row of `pid` rewrites exactly the row that
`findStock` returns for `pid`. -/
theorem find_setStockQty (stock : List StockRow) (pid : Nat) (q : Int) :
    (setStockQty stock pid q).find? (fun s => s.productId == pid) =
      (stock.find? (fun s => s.productId == pid)).map
        (fun s => { s with quantity := q }) := by
  induction stock with
  | nil => rfl
  | cons a l ih =>
      by_cases h : a.productId = pid
      · simp [setStockQty, List.find?_cons, h, -List.find?_map]
      · simp [setStockQty, List.find?_cons, h, -List.find?_map] at ih ⊢
        exact ih

/-- Updating the stock row of `pid` leaves `findStock` unchanged at any
other product id. -/
theorem find_setStockQty_ne (stock : List StockRow) (pid pid' : Nat) (q : Int)
    (hne : pid' ≠ pid) :
    (setStockQty stock pid q).find? (fun s => s.productId == pid') =
      stock.find? (fun s => s.productId == pid') := by
  induction stock with
  | nil => rfl
  | cons a l ih =>
      by_cases h : a.productId = pid
      · have h4 : (pid == pid') = false := beq_eq_false_iff_ne.mpr (Ne.symm hne)
        simp [setStockQty, List.find?_cons, h, h4, -List.find?_map] at ih ⊢
        exact ih
      · by_cases h3 : a.productId = pid'
        · simp [setStockQty, List.find?_cons, h, h3, hne, -List.find?_map]
        · simp [setStockQty, List.find?_cons, h, h3, -List.find?_map] at ih ⊢
          exact ih

/-- Setting the status of order `oid` rewrites exactly the row that
`findOrder` returns for `oid`. -/
theorem find_setOrderStatus (orders : List Order) (oid : Nat) (st : Status) :
    (setOrderStatus orders oid st).find? (fun o => o.id == oid) =
      (orders.find? (fun o => o.id == oid)).map
        (fun o => { o with status := st }) := by
  induction orders with
  | nil => rfl
  | cons a l ih =>
      by_cases h : a.id = oid
      · simp [setOrderStatus, List.find?_cons, h, -List.find?_map]
      · simp [setOrderStatus, List.find?_cons, h, -List.find?_map] at ih ⊢
        exact ih

/-! ### C3: `mark_paid` -/

/-- The status `UPDATE` is the identity when no order row matches the id. -/
theorem setOrderStatus_of_none (orders : List Order) (oid : Nat) (st : Status)
    (h : orders.find? (fun o => o.id == oid) = none) :
    setOrderStatus orders oid st = orders := by
  have h' := List.find?_eq_none.mp h
  have hid : ∀ o ∈ orders,
      (if o.id == oid then ({ o with status := st } : Order) else o) = id o := by
    intro o ho
    have hne : (o.id == oid) = false := by
      have := h' o ho
      simpa using this
    rw [hne]
    rfl
  rw [setOrderStatus, List.map_congr_left hid, List.map_id]

/-- C3, amended.  `mark_paid` performs no existence or status check: it
always reports success and touches nothing but the orders table — stock,
movements, reservations and items are unchanged.  When an order with the
given id exists, its status is rewritten to PAID whatever its previous
status (PENDING, RESERVED, CANCELLED or FAILED alike); when no such order
exists, the call still reports success and the state is completely
unchanged. -/
theorem C3_amended (db : DB) (oid : Nat) :
    (mark_paid db oid).2 = .ok .PAID ∧
    (mark_paid db oid).1.stock = db.stock ∧
    (mark_paid db oid).1.movements = db.movements ∧
    (mark_paid db oid).1.reservations = db.reservations ∧
    (mark_paid db oid).1.orderItems = db.orderItems ∧
    (∀ o : Order, findOrder db oid = some o →
        findOrder (mark_paid db oid).1 oid = some { o with status := .PAID }) ∧
    (findOrder db oid = none → (mark_paid db oid).1 = db) := by
  refine ⟨rfl, rfl, rfl, rfl, rfl, ?_, ?_⟩
  · intro o h
    show (setOrderStatus db.orders oid .PAID).find? (fun x => x.id == oid) = _
    rw [find_setOrderStatus]
    rw [show db.orders.find? (fun x => x.id == oid) = some o from h]
    rfl
  · intro h
    show ({ db with orders := setOrderStatus db.orders oid .PAID } : DB) = db
    rw [setOrderStatus_of_none db.orders oid .PAID h]

/-- Witness for C3 at a concrete CANCELLED order (transitioned to PAID)
and at a missing order id on the empty store (success, state unchanged). -/
theorem C3_witness :
    (mark_paid (run cancelledTrace) 0).2 = .ok .PAID ∧
    findOrder (mark_paid (run cancelledTrace) 0).1 0 =
      some { id := 0, status := .PAID } ∧
    (mark_paid (run cancelledTrace) 0).1.stock = (run cancelledTrace).stock ∧
    (mark_paid emptyDB 5).2 = .ok .PAID ∧
    (mark_paid emptyDB 5).1 = emptyDB :=
  ⟨(C3_amended (run cancelledTrace) 0).1,
   (C3_amended (run cancelledTrace) 0).2.2.2.2.2.1
     { id := 0, status := .CANCELLED } (by decide),
   (C3_amended (run cancelledTrace) 0).2.1,
   (C3_amended emptyDB 5).1,
   (C3_amended emptyDB 5).2.2.2.2.2.2 (by decide)⟩

/-! ### C4: `mark_failed` -/

/-- C4, amended.  `mark_failed` performs no status check and invokes no
compensating release: it always reports success, rewrites the status of
the order with the given id to FAILED — even when the order is PAID — and
leaves stock, movements and reservations untouched, so reserved stock is
not restored and the reservation stays active. -/
theorem C4_amended (db : DB) (oid : Nat) (o : Order)
    (h : findOrder db oid = some o) :
    (mark_failed db oid).2 = .ok .FAILED ∧
    findOrder (mark_failed db oid).1 oid = some { o with status := .FAILED } ∧
    (mark_failed db oid).1.stock = db.stock ∧
    (mark_failed db oid).1.movements = db.movements ∧
    (mark_failed db oid).1.reservations = db.reservations := by
  refine ⟨rfl, ?_, rfl, rfl, rfl⟩
  show (setOrderStatus db.orders oid .FAILED).find? (fun x => x.id == oid) = _
  rw [find_setOrderStatus]
  rw [show db.orders.find? (fun x => x.id == oid) = some o from h]
  rfl

/-- Witness for C4 at a concrete PAID order with an active reservation. -/
theorem C4_witness :
    (mark_failed (run paidTrace) 0).2 = .ok .FAILED ∧
    findOrder (mark_failed (run paidTrace) 0).1 0 =
      some { id := 0, status := .FAILED } ∧
    (mark_failed (run paidTrace) 0).1.stock = (run paidTrace).stock ∧
    (mark_failed (run paidTrace) 0).1.movements = (run paidTrace).movements ∧
    (mark_failed (run paidTrace) 0).1.reservations = (run paidTrace).reservations :=
  C4_amended (run paidTrace) 0 { id := 0, status := .PAID } (by decide)

/-! ### C7: `release_stock` with no active reservation -/

/-- C7, amended.  When an order has no active reservation, `release_stock`
reports `released = false` and performs no mutation at all, whatever the
order's status — in particular a PENDING or RESERVED order is *not*
transitioned to CANCELLED. -/
theorem C7_amended (db : DB) (oid : Nat)
    (h : findActiveReservation db oid = none) :
    release_stock db oid = (db, .notReleased) := by
  unfold release_stock
  rw [h]

/-- Witness for C7 at a concrete PENDING order with no reservation. -/
theorem C7_witness :
    release_stock (run [.createOrder "X" 1]) 0 = (run [.createOrder "X" 1], .notReleased) :=
  C7_amended (run [.createOrder "X" 1]) 0 (by decide)

end MCPServer

namespace MCPServer

/-! ### Unfolding lemmas for the mutating branches -/

/-- Unfolding of `release_stock` when an active reservation and its product
row exist. -/
theorem release_stock_active (db : DB) (oid : Nat) (r : Reservation)
    (prod : Product)
    (hr : findActiveReservation db oid = some r)
    (hp : findProduct db r.sku = some prod) :
    release_stock db oid =
      ({ db with
          stock := setStockQty db.stock prod.id
            (((findStock db prod.id).map StockRow.quantity).getD 0 + r.qty),
          reservations := db.reservations.map (fun x =>
            if x.id == r.id then { x with active := false, releasedAt := true } else x),
          orders := setOrderStatus db.orders oid .CANCELLED },
       .released .CANCELLED) := by
  simp only [release_stock, hr, hp]

/-- Unfolding of `reserve_for_order` on the success path. -/
theorem reserve_for_order_reserves (db : DB) (oid : Nat) (o : Order)
    (item : OrderItem) (prod : Product)
    (ho : findOrder db oid = some o)
    (hst : (o.status == Status.PAID || o.status == Status.CANCELLED
            || o.status == Status.FAILED) = false)
    (hi : findItem db oid = some item)
    (hp : findProduct db item.sku = some prod)
    (hok : ¬ ((findStock db prod.id).map StockRow.quantity).getD 0 < item.qty) :
    reserve_for_order db oid =
      ({ db with
          stock := setStockQty db.stock prod.id
            (((findStock db prod.id).map StockRow.quantity).getD 0 - item.qty),
          movements := db.movements ++
            [{ productId := prod.id, delta := -item.qty,
               reason := "reserve_order:" ++ toString oid }],
          reservations := db.reservations ++
            [{ id := db.nextReservationId, orderId := oid, sku := item.sku,
               qty := item.qty, active := true, releasedAt := false }],
          orders := setOrderStatus db.orders oid .RESERVED,
          nextReservationId := db.nextReservationId + 1 },
       .ok oid .RESERVED
         { id := db.nextReservationId, orderId := oid, sku := item.sku,
           qty := item.qty, active := true, releasedAt := false }) := by
  simp only [reserve_for_order, ho, hst, hi, hp, Bool.false_eq_true, if_false, hok,
    if_neg hok]

/-! ### C1: no idempotent re-entry in `reserve_for_order` -/

/-- C1, amended.  `reserve_for_order` has no idempotent re-entry branch:
on an order whose status is RESERVED (so in particular one that already
carries an active reservation), provided the item's product exists and
stock suffices, the call runs the full reservation path again — it appends
a brand-new active reservation row, decrements the stock by the item
quantity once more, and appends another stock movement.  Two successive
calls therefore decrement the stock twice. -/
theorem C1_amended (db : DB) (oid : Nat) (o : Order) (item : OrderItem)
    (prod : Product) (s : StockRow)
    (ho : findOrder db oid = some o) (hres : o.status = .RESERVED)
    (hi : findItem db oid = some item)
    (hp : findProduct db item.sku = some prod)
    (hs : findStock db prod.id = some s)
    (hq : item.qty ≤ s.quantity) :
    (reserve_for_order db oid).2 =
      .ok oid .RESERVED
        { id := db.nextReservationId, orderId := oid, sku := item.sku,
          qty := item.qty, active := true, releasedAt := false } ∧
    (reserve_for_order db oid).1.reservations =
      db.reservations ++
        [{ id := db.nextReservationId, orderId := oid, sku := item.sku,
           qty := item.qty, active := true, releasedAt := false }] ∧
    stockQty (reserve_for_order db oid).1 prod.id = some (s.quantity - item.qty) ∧
    (reserve_for_order db oid).1.movements =
      db.movements ++
        [{ productId := prod.id, delta := -item.qty,
           reason := "reserve_order:" ++ toString oid }] := by
  have hst : (o.status == Status.PAID || o.status == Status.CANCELLED
      || o.status == Status.FAILED) = false := by rw [hres]; rfl
  have hcur : ((findStock db prod.id).map StockRow.quantity).getD 0 = s.quantity := by
    rw [hs]; rfl
  have hok : ¬ ((findStock db prod.id).map StockRow.quantity).getD 0 < item.qty := by
    rw [hcur]; omega
  have key := reserve_for_order_reserves db oid o item prod ho hst hi hp hok
  rw [key]
  refine ⟨rfl, rfl, ?_, rfl⟩
  show ((setStockQty db.stock prod.id _).find? (fun x => x.productId == prod.id)).map
      StockRow.quantity = _
  rw [find_setStockQty,
    show db.stock.find? (fun x => x.productId == prod.id) = some s from hs]
  rw [show ((findStock db prod.id).map StockRow.quantity).getD 0 = s.quantity from hcur]
  rfl

/-- Witness for C1 on the RESERVED order of `reservedTrace` (quantity 7,
item quantity 3, one active reservation already present). -/
theorem C1_witness :
    (reserve_for_order (run reservedTrace) 0).2 =
      .ok 0 .RESERVED
        { id := 1, orderId := 0, sku := "S", qty := 3, active := true, releasedAt := false } ∧
    (reserve_for_order (run reservedTrace) 0).1.reservations =
      (run reservedTrace).reservations ++
        [{ id := 1, orderId := 0, sku := "S", qty := 3, active := true, releasedAt := false }] ∧
    stockQty (reserve_for_order (run reservedTrace) 0).1 0 = some (7 - 3) ∧
    (reserve_for_order (run reservedTrace) 0).1.movements =
      (run reservedTrace).movements ++
        [{ productId := 0, delta := -3, reason := "reserve_order:" ++ toString 0 }] :=
  C1_amended (run reservedTrace) 0 { id := 0, status := .RESERVED }
    { orderId := 0, sku := "S", qty := 3 } { id := 0, sku := "S", name := "W" }
    { productId := 0, quantity := 7 }
    (by decide) rfl (by decide) (by decide) (by decide) (by decide)

/-! ### C5: `release_stock` on a PAID order -/

/-- C5, amended.  `release_stock` performs no order-status check: on a
PAID order that still has an active reservation it succeeds — restoring
the reserved quantity to stock, deactivating the reservation and
overwriting the PAID status with CANCELLED — instead of failing with
`StateConflictError(CANNOT_RELEASE_PAID_ORDER)` without mutation.  (No
stock movement is recorded either.) -/
theorem C5_amended (db : DB) (oid : Nat) (o : Order) (r : Reservation)
    (prod : Product) (s : StockRow)
    (ho : findOrder db oid = some o) (hpaid : o.status = .PAID)
    (hr : findActiveReservation db oid = some r)
    (hp : findProduct db r.sku = some prod)
    (hs : findStock db prod.id = some s) :
    (release_stock db oid).2 = .released .CANCELLED ∧
    stockQty (release_stock db oid).1 prod.id = some (s.quantity + r.qty) ∧
    (release_stock db oid).1.reservations =
      db.reservations.map (fun x =>
        if x.id == r.id then { x with active := false, releasedAt := true } else x) ∧
    findOrder (release_stock db oid).1 oid = some { o with status := .CANCELLED } ∧
    (release_stock db oid).1.movements = db.movements := by
  have key := release_stock_active db oid r prod hr hp
  have hcur : ((findStock db prod.id).map StockRow.quantity).getD 0 = s.quantity := by
    rw [hs]; rfl
  rw [key]
  refine ⟨rfl, ?_, rfl, ?_, rfl⟩
  · show ((setStockQty db.stock prod.id _).find? (fun x => x.productId == prod.id)).map
        StockRow.quantity = _
    rw [find_setStockQty,
      show db.stock.find? (fun x => x.productId == prod.id) = some s from hs]
    rw [show ((findStock db prod.id).map StockRow.quantity).getD 0 = s.quantity from hcur]
    rfl
  · show (setOrderStatus db.orders oid .CANCELLED).find? (fun x => x.id == oid) = _
    rw [find_setOrderStatus,
      show db.orders.find? (fun x => x.id == oid) = some o from ho]
    rfl

/-- Witness for C5 on the PAID order of `paidTrace` (quantity 3, active
reservation of 2). -/
theorem C5_witness :
    (release_stock (run paidTrace) 0).2 = .released .CANCELLED ∧
    stockQty (release_stock (run paidTrace) 0).1 0 = some (3 + 2) ∧
    (release_stock (run paidTrace) 0).1.reservations =
      (run paidTrace).reservations.map (fun x =>
        if x.id == 0 then { x with active := false, releasedAt := true } else x) ∧
    findOrder (release_stock (run paidTrace) 0).1 0 =
      some { id := 0, status := .CANCELLED } ∧
    (release_stock (run paidTrace) 0).1.movements = (run paidTrace).movements :=
  C5_amended (run paidTrace) 0 { id := 0, status := .PAID }
    { id := 0, orderId := 0, sku := "S", qty := 2, active := true, releasedAt := false }
    { id := 0, sku := "S", name := "W" } { productId := 0, quantity := 3 }
    (by decide) rfl (by decide) (by decide) (by decide)

/-! ### C6: `release_stock` with an active reservation -/

/-- C6, amended.  On an order with an active reservation (here a non-PAID
one, as the claim assumes), `release_stock` adds the reserved quantity
back to the product's stock, sets the reservation's `active` flag to false
and stamps `released_at`, and sets the order status to CANCELLED
unconditionally (not only from PENDING or RESERVED) — but it appends *no*
stock movement for the restoration. -/
theorem C6_amended (db : DB) (oid : Nat) (o : Order) (r : Reservation)
    (prod : Product) (s : StockRow)
    (ho : findOrder db oid = some o) (hnp : o.status ≠ .PAID)
    (hr : findActiveReservation db oid = some r)
    (hp : findProduct db r.sku = some prod)
    (hs : findStock db prod.id = some s) :
    (release_stock db oid).2 = .released .CANCELLED ∧
    stockQty (release_stock db oid).1 prod.id = some (s.quantity + r.qty) ∧
    (release_stock db oid).1.reservations =
      db.reservations.map (fun x =>
        if x.id == r.id then { x with active := false, releasedAt := true } else x) ∧
    findOrder (release_stock db oid).1 oid = some { o with status := .CANCELLED } ∧
    (release_stock db oid).1.movements = db.movements := by
  have key := release_stock_active db oid r prod hr hp
  have hcur : ((findStock db prod.id).map StockRow.quantity).getD 0 = s.quantity := by
    rw [hs]; rfl
  rw [key]
  refine ⟨rfl, ?_, rfl, ?_, rfl⟩
  · show ((setStockQty db.stock prod.id _).find? (fun x => x.productId == prod.id)).map
        StockRow.quantity = _
    rw [find_setStockQty,
      show db.stock.find? (fun x => x.productId == prod.id) = some s from hs]
    rw [show ((findStock db prod.id).map StockRow.quantity).getD 0 = s.quantity from hcur]
    rfl
  · show (setOrderStatus db.orders oid .CANCELLED).find? (fun x => x.id == oid) = _
    rw [find_setOrderStatus,
      show db.orders.find? (fun x => x.id == oid) = some o from ho]
    rfl

/-- Witness for C6 on the RESERVED order of `smallTrace` (quantity 3,
active reservation of 2). -/
theorem C6_witness :
    (release_stock (run smallTrace) 0).2 = .released .CANCELLED ∧
    stockQty (release_stock (run smallTrace) 0).1 0 = some (3 + 2) ∧
    (release_stock (run smallTrace) 0).1.reservations =
      (run smallTrace).reservations.map (fun x =>
        if x.id == 0 then { x with active := false, releasedAt := true } else x) ∧
    findOrder (release_stock (run smallTrace) 0).1 0 =
      some { id := 0, status := .CANCELLED } ∧
    (release_stock (run smallTrace) 0).1.movements = (run smallTrace).movements :=
  C6_amended (run smallTrace) 0 { id := 0, status := .RESERVED }
    { id := 0, orderId := 0, sku := "S", qty := 2, active := true, releasedAt := false }
    { id := 0, sku := "S", name := "W" } { productId := 0, quantity := 3 }
    (by decide) (by decide) (by decide) (by decide) (by decide)

end MCPServer

namespace MCPServer

/-! ### C9: `add_stock` -/

/-- Unfolding of `add_stock` on the success path. -/
theorem add_stock_applies (db : DB) (sku : String) (delta : Int) (reason : String)
    (prod : Product)
    (hp : findProduct db sku = some prod)
    (hd : (delta == 0) = false)
    (hok : ¬ ((findStock db prod.id).map StockRow.quantity).getD 0 + delta < 0) :
    add_stock db sku delta reason =
      ({ db with
          stock := setStockQty db.stock prod.id
            (((findStock db prod.id).map StockRow.quantity).getD 0 + delta),
          movements := db.movements ++
            [{ productId := prod.id, delta := delta, reason := reason }] },
       .ok (((findStock db prod.id).map StockRow.quantity).getD 0)
         (((findStock db prod.id).map StockRow.quantity).getD 0 + delta) delta reason) := by
  simp only [add_stock, hd, Bool.false_eq_true, if_false, hp, if_neg hok]

/-- Unfolding of `add_stock` on the insufficient-stock path. -/
theorem add_stock_insufficient (db : DB) (sku : String) (delta : Int) (reason : String)
    (prod : Product)
    (hp : findProduct db sku = some prod)
    (hd : (delta == 0) = false)
    (hneg : ((findStock db prod.id).map StockRow.quantity).getD 0 + delta < 0) :
    add_stock db sku delta reason =
      (db, .insufficientStock (((findStock db prod.id).map StockRow.quantity).getD 0) delta) := by
  simp only [add_stock, hd, Bool.false_eq_true, if_false, hp, if_pos hneg]

/-- C9, confirmed.  For a known SKU (with its stock row, which every
product created through the tools has) and a nonzero delta: when
`before + delta < 0`, `add_stock` fails with the insufficient-stock
payload carrying the current quantity and the requested delta and mutates
nothing at all; otherwise it reports `(before, before + delta)`, updates
the quantity to `before + delta`, and appends exactly one movement row
with the signed delta and the supplied reason. -/
theorem C9_adjustStock (db : DB) (sku : String) (delta : Int) (reason : String)
    (prod : Product) (s : StockRow)
    (hp : findProduct db sku = some prod)
    (hs : findStock db prod.id = some s)
    (hd : delta ≠ 0) :
    (s.quantity + delta < 0 →
        add_stock db sku delta reason = (db, .insufficientStock s.quantity delta)) ∧
    (0 ≤ s.quantity + delta →
        (add_stock db sku delta reason).2 = .ok s.quantity (s.quantity + delta) delta reason ∧
        stockQty (add_stock db sku delta reason).1 prod.id = some (s.quantity + delta) ∧
        (add_stock db sku delta reason).1.movements =
          db.movements ++ [{ productId := prod.id, delta := delta, reason := reason }]) := by
  have hd' : (delta == 0) = false := beq_eq_false_iff_ne.mpr hd
  have hcur : ((findStock db prod.id).map StockRow.quantity).getD 0 = s.quantity := by
    rw [hs]; rfl
  constructor
  · intro hneg
    have := add_stock_insufficient db sku delta reason prod hp hd' (by rw [hcur]; omega)
    rw [this, hcur]
  · intro hpos
    have key := add_stock_applies db sku delta reason prod hp hd' (by rw [hcur]; omega)
    rw [key, hcur]
    refine ⟨rfl, ?_, rfl⟩
    show ((setStockQty db.stock prod.id _).find? (fun x => x.productId == prod.id)).map
        StockRow.quantity = _
    rw [find_setStockQty,
      show db.stock.find? (fun x => x.productId == prod.id) = some s from hs]
    rfl

/-- Witness for C9 on the insufficient-stock branch: quantity 3,
requested delta −7. -/
theorem C9_witness :
    (3 : Int) + (-7) < 0 ∧
    add_stock (run [.createProduct "S" "W" 3]) "S" (-7) "shrink" =
      (run [.createProduct "S" "W" 3], .insufficientStock 3 (-7)) :=
  ⟨by decide,
    (C9_adjustStock (run [.createProduct "S" "W" 3]) "S" (-7) "shrink"
      { id := 0, sku := "S", name := "W" } { productId := 0, quantity := 3 }
      (by decide) (by decide) (by decide)).1 (by decide)⟩

/-! ### C10: `create_order` does not check the SKU -/

/-- C10, confirmed.  `create_order` performs no product-existence check:
for any SKU with no product row and any `qty > 0` it succeeds, creating a
PENDING order with that single item, and the unknown SKU is only detected
when `reserve_for_order` on that order fails with `SKU_NOT_FOUND`
(mutating nothing).  The freshness hypotheses on existing ids hold in
every state reachable through the tools. -/
theorem C10_createOrder (db : DB) (sku : String) (qty : Int)
    (hq : 0 < qty)
    (hsku : findProduct db sku = none)
    (hords : ∀ o ∈ db.orders, o.id < db.nextOrderId)
    (hitems : ∀ it ∈ db.orderItems, it.orderId < db.nextOrderId) :
    (create_order db sku qty).2 = .ok db.nextOrderId .PENDING sku qty ∧
    findOrder (create_order db sku qty).1 db.nextOrderId =
      some { id := db.nextOrderId, status := .PENDING } ∧
    findItem (create_order db sku qty).1 db.nextOrderId =
      some { orderId := db.nextOrderId, sku := sku, qty := qty } ∧
    reserve_for_order (create_order db sku qty).1 db.nextOrderId =
      ((create_order db sku qty).1, .skuNotFound sku) := by
  have hq' : ¬ qty ≤ 0 := by omega
  have hco : create_order db sku qty =
      ({ db with
          orders := db.orders ++ [{ id := db.nextOrderId, status := .PENDING }],
          orderItems := db.orderItems ++
            [{ orderId := db.nextOrderId, sku := sku, qty := qty }],
          nextOrderId := db.nextOrderId + 1 },
       .ok db.nextOrderId .PENDING sku qty) := by
    simp only [create_order, if_neg hq']
  rw [hco]
  have hfo : (db.orders ++ [({ id := db.nextOrderId, status := .PENDING } : Order)]).find?
      (fun x => x.id == db.nextOrderId) =
      some { id := db.nextOrderId, status := .PENDING } := by
    rw [List.find?_append]
    have hnone : db.orders.find? (fun x => x.id == db.nextOrderId) = none := by
      rw [List.find?_eq_none]
      intro x hx
      have := hords x hx
      simp only [beq_iff_eq]
      omega
    rw [hnone]
    simp [List.find?_cons]
  have hfi : (db.orderItems ++
        [({ orderId := db.nextOrderId, sku := sku, qty := qty } : OrderItem)]).find?
      (fun x => x.orderId == db.nextOrderId) =
      some { orderId := db.nextOrderId, sku := sku, qty := qty } := by
    rw [List.find?_append]
    have hnone : db.orderItems.find? (fun x => x.orderId == db.nextOrderId) = none := by
      rw [List.find?_eq_none]
      intro x hx
      have := hitems x hx
      simp only [beq_iff_eq]
      omega
    rw [hnone]
    simp [List.find?_cons]
  refine ⟨rfl, hfo, hfi, ?_⟩
  have hfoR : findOrder
      ({ db with
          orders := db.orders ++ [{ id := db.nextOrderId, status := .PENDING }],
          orderItems := db.orderItems ++
            [{ orderId := db.nextOrderId, sku := sku, qty := qty }],
          nextOrderId := db.nextOrderId + 1 } : DB) db.nextOrderId =
      some { id := db.nextOrderId, status := .PENDING } := hfo
  have hfiR : findItem
      ({ db with
          orders := db.orders ++ [{ id := db.nextOrderId, status := .PENDING }],
          orderItems := db.orderItems ++
            [{ orderId := db.nextOrderId, sku := sku, qty := qty }],
          nextOrderId := db.nextOrderId + 1 } : DB) db.nextOrderId =
      some { orderId := db.nextOrderId, sku := sku, qty := qty } := hfi
  have hskuR : findProduct
      ({ db with
          orders := db.orders ++ [{ id := db.nextOrderId, status := .PENDING }],
          orderItems := db.orderItems ++
            [{ orderId := db.nextOrderId, sku := sku, qty := qty }],
          nextOrderId := db.nextOrderId + 1 } : DB) sku = none := hsku
  simp only [reserve_for_order, hfoR, hfiR, hskuR]
  rfl

/-- Witness for C10 from the empty store with the unknown SKU `"GHOST"`. -/
theorem C10_witness :
    (0 : Int) < 1 ∧ findProduct emptyDB "GHOST" = none ∧
    ((create_order emptyDB "GHOST" 1).2 = .ok 0 .PENDING "GHOST" 1 ∧
     findOrder (create_order emptyDB "GHOST" 1).1 0 = some { id := 0, status := .PENDING } ∧
     findItem (create_order emptyDB "GHOST" 1).1 0 =
       some { orderId := 0, sku := "GHOST", qty := 1 } ∧
     reserve_for_order (create_order emptyDB "GHOST" 1).1 0 =
       ((create_order emptyDB "GHOST" 1).1, .skuNotFound "GHOST")) :=
  ⟨by decide, by decide,
    C10_createOrder emptyDB "GHOST" 1 (by decide) (by decide)
      (by intro o ho; cases ho) (by intro it hit; cases hit)⟩

end MCPServer

namespace MCPServer

/-- `create_product` never touches the reservations table. -/
theorem create_product_reservations (db : DB) (sku name : String) (q : Int) :
    (create_product db sku name q).1.reservations = db.reservations := by
  unfold create_product
  split
  · rfl
  · dsimp only
    split <;> split <;> split <;> rfl

/-- `add_stock` never touches the reservations table. -/
theorem add_stock_reservations (db : DB) (sku : String) (d : Int) (r : String) :
    (add_stock db sku d r).1.reservations = db.reservations := by
  unfold add_stock
  split
  · rfl
  · split
    · rfl
    · dsimp only
      split <;> rfl

/-- `create_order` never touches the reservations table. -/
theorem create_order_reservations (db : DB) (sku : String) (q : Int) :
    (create_order db sku q).1.reservations = db.reservations := by
  unfold create_order
  split <;> rfl

/-- `reserve_for_order` either leaves the reservations table unchanged or
appends exactly one active reservation for the called order. -/
theorem reserve_for_order_reservations (db : DB) (oid : Nat) :
    (reserve_for_order db oid).1.reservations = db.reservations ∨
    ∃ res : Reservation, res.orderId = oid ∧ res.active = true ∧
      (reserve_for_order db oid).1.reservations = db.reservations ++ [res] := by
  unfold reserve_for_order
  split
  · left; rfl
  · split
    · left; rfl
    · split
      · left; rfl
      · split
        · left; rfl
        · dsimp only
          split
          · left; rfl
          · right; exact ⟨_, rfl, rfl, rfl⟩

/-- `release_stock` either leaves the reservations table unchanged or maps
a deactivation over it. -/
theorem release_stock_reservations (db : DB) (oid : Nat) :
    (release_stock db oid).1.reservations = db.reservations ∨
    ∃ rid : Nat, (release_stock db oid).1.reservations =
      db.reservations.map (fun x =>
        if x.id == rid then { x with active := false, releasedAt := true } else x) := by
  unfold release_stock
  split
  · left; rfl
  · split
    · left; rfl
    · right; exact ⟨_, rfl⟩

/-- Mapping a function that can only falsify the predicate never increases
the number of rows kept by `filter`. -/
theorem length_filter_map_le {α : Type} (f : α → α) (p : α → Bool)
    (hf : ∀ x, p (f x) = true → p x = true) (l : List α) :
    ((l.map f).filter p).length ≤ (l.filter p).length := by
  induction l with
  | nil => simp
  | cons a l ih =>
      simp only [List.map_cons, List.filter_cons]
      by_cases h1 : p (f a) = true
      · have h2 := hf a h1
        simp only [h1, h2, if_true, List.length_cons]
        omega
      · simp only [Bool.not_eq_true] at h1
        simp only [h1]
        by_cases h2 : p a = true
        · simp only [h2, if_true, List.length_cons]
          have hx : (if false = true then f a :: (l.map f).filter p else (l.map f).filter p)
              = (l.map f).filter p := by simp
          rw [hx]
          omega
        · simp only [Bool.not_eq_true] at h2
          simp only [h2]
          have hx : (if false = true then f a :: (l.map f).filter p else (l.map f).filter p)
              = (l.map f).filter p := by simp
          have hy : (if false = true then a :: l.filter p else l.filter p) = l.filter p := by
            simp
          rw [hx, hy]
          exact ih

/-- Deactivating one reservation id never increases the number of active
reservations of any order. -/
theorem countActive_deactivate_le (l : List Reservation) (rid oid : Nat) :
    ((l.map (fun x =>
        if x.id == rid then { x with active := false, releasedAt := true } else x)).filter
          (fun r => r.orderId == oid && r.active)).length ≤
      (l.filter (fun r => r.orderId == oid && r.active)).length := by
  refine length_filter_map_le _ _ ?_ l
  intro x hx
  by_cases h : (x.id == rid) = true
  · simp [h] at hx
  · simp only [Bool.not_eq_true] at h
    simp only [h] at hx
    simpa using hx

end MCPServer

namespace MCPServer

/-- Number of `reserveForOrder oid` calls in a trace. -/
def reserveCount (ops : List Op) (oid : Nat) : Nat :=
  (ops.filter (fun op => op == Op.reserveForOrder oid)).length

/-- One tool call raises the number of active reservations of an order by
at most one, and only when the call is `reserveForOrder` on that order. -/
theorem countActiveRes_step (db : DB) (op : Op) (oid : Nat) :
    countActiveRes (step db op) oid ≤
      countActiveRes db oid + (if op = Op.reserveForOrder oid then 1 else 0) := by
  cases op with
  | createProduct s n q =>
      have h := create_product_reservations db s n q
      simp only [step, countActiveRes, h]
      exact Nat.le_add_right _ _
  | getStock s =>
      simp only [step, countActiveRes]
      exact Nat.le_add_right _ _
  | addStock s d r =>
      have h := add_stock_reservations db s d r
      simp only [step, countActiveRes, h]
      exact Nat.le_add_right _ _
  | createOrder s q =>
      have h := create_order_reservations db s q
      simp only [step, countActiveRes, h]
      exact Nat.le_add_right _ _
  | getOrder o =>
      simp only [step, countActiveRes]
      exact Nat.le_add_right _ _
  | reserveForOrder oid' =>
      rcases reserve_for_order_reservations db oid' with h | ⟨res, hro, hra, h⟩
      · simp only [step, countActiveRes, h]
        exact Nat.le_add_right _ _
      · simp only [step, countActiveRes, h, List.filter_append, List.length_append]
        by_cases ho : oid' = oid
        · subst ho
          have hone : ((List.filter (fun r => r.orderId == oid' && r.active) [res]).length) ≤ 1 := by
            by_cases hp : (res.orderId == oid' && res.active) = true
            · simp [List.filter_cons, hp]
            · simp only [Bool.not_eq_true] at hp
              simp [List.filter_cons, hp]
          simp only [if_pos rfl, eq_self_iff_true, if_true]
          omega
        · have hp : (res.orderId == oid && res.active) = false := by
            rw [hro]
            exact Bool.and_eq_false_iff.mpr (Or.inl (beq_eq_false_iff_ne.mpr ho))
          simp [List.filter_cons, hp]
  | releaseStock oid' =>
      rcases release_stock_reservations db oid' with h | ⟨rid, h⟩
      · simp only [step, countActiveRes, h]
        exact Nat.le_add_right _ _
      · simp only [step, countActiveRes, h]
        exact le_trans (countActive_deactivate_le db.reservations rid oid) (Nat.le_add_right _ _)
  | markPaid o =>
      simp only [step, countActiveRes, mark_paid]
      exact Nat.le_add_right _ _
  | markFailed o =>
      simp only [step, countActiveRes, mark_failed]
      exact Nat.le_add_right _ _

/-- Trace bound: active reservations grow at most by the number of
`reserveForOrder` calls on the order. -/
theorem countActiveRes_foldl (ops : List Op) (db : DB) (oid : Nat) :
    countActiveRes (ops.foldl step db) oid ≤ countActiveRes db oid + reserveCount ops oid := by
  induction ops generalizing db with
  | nil => simp [reserveCount]
  | cons op ops ih =>
      have h1 := countActiveRes_step db op oid
      have h2 := ih (step db op)
      have h3 : reserveCount (op :: ops) oid =
          (if op = Op.reserveForOrder oid then 1 else 0) + reserveCount ops oid := by
        by_cases ho : op = Op.reserveForOrder oid
        · simp only [reserveCount, List.filter_cons, ho, beq_self_eq_true, if_true,
            List.length_cons, eq_self_iff_true]
          omega
        · have : (op == Op.reserveForOrder oid) = false := beq_eq_false_iff_ne.mpr ho
          simp [reserveCount, List.filter_cons, this, ho]
      simp only [List.foldl_cons]
      omega

/-- C2, amended.  The per-order uniqueness of active reservations fails
(see the counterexample); what does hold in every reachable state is that
the number of reservation rows with `active = true` attached to an order
never exceeds the number of `reserveForOrder` invocations on that order in
the trace — each call creates at most one active reservation, and no other
operation activates one. -/
theorem C2_amended (ops : List Op) (oid : Nat) :
    countActiveRes (run ops) oid ≤ reserveCount ops oid := by
  have := countActiveRes_foldl ops emptyDB oid
  simpa [countActiveRes, emptyDB] using this

end MCPServer

namespace MCPServer

/-- Appending one movement adds its delta to the sum when the product
matches. -/
theorem sumDeltas_append (movs : List StockMovement) (m : StockMovement) (pid : Nat) :
    sumDeltas (movs ++ [m]) pid =
      sumDeltas movs pid + (if m.productId == pid then m.delta else 0) := by
  by_cases h : (m.productId == pid) = true
  · simp [sumDeltas, List.filter_append, List.filter_cons, h]
  · simp only [Bool.not_eq_true] at h
    simp [sumDeltas, List.filter_append, List.filter_cons, h]

/-- A product id that appears in no movement has a zero delta sum. -/
theorem sumDeltas_zero_of_fresh (movs : List StockMovement) (pid : Nat)
    (h : ∀ m ∈ movs, m.productId ≠ pid) :
    sumDeltas movs pid = 0 := by
  have hnil : movs.filter (fun m => m.productId == pid) = [] := by
    rw [List.filter_eq_nil_iff]
    intro m hm
    simpa using h m hm
  simp [sumDeltas, hnil]

/-- `find?` on a list extended by one element, when the prefix has no
match. -/
theorem find_append_single {α : Type} (p : α → Bool) (l : List α) (x : α)
    (h : l.find? p = none) :
    (l ++ [x]).find? p = if p x then some x else none := by
  rw [List.find?_append, h]
  cases hx : p x <;> simp [List.find?_cons, hx]

/-- Updating a stock quantity never changes which product ids have a
stock row. -/
theorem find_setStockQty_isSome (stock : List StockRow) (pid pid' : Nat) (q : Int) :
    ((setStockQty stock pid q).find? (fun s => s.productId == pid')).isSome =
      (stock.find? (fun s => s.productId == pid')).isSome := by
  by_cases h : pid' = pid
  · subst h
    rw [find_setStockQty]
    cases stock.find? (fun s => s.productId == pid') <;> simp
  · rw [find_setStockQty_ne _ _ _ _ h]

/-- Updating a stock quantity preserves the product-id bound. -/
theorem fresh_setStockQty (stock : List StockRow) (pid : Nat) (q : Int) (n : Nat)
    (h : ∀ s ∈ stock, s.productId < n) :
    ∀ s ∈ setStockQty stock pid q, s.productId < n := by
  intro s' hs'
  rcases List.mem_map.mp hs' with ⟨s, hs, rfl⟩
  split <;> exact h s hs

/-- Updating a stock quantity to a non-negative value preserves
non-negativity. -/
theorem nonneg_setStockQty (stock : List StockRow) (pid : Nat) (q : Int) (hq : 0 ≤ q)
    (h : ∀ s ∈ stock, 0 ≤ s.quantity) :
    ∀ s ∈ setStockQty stock pid q, 0 ≤ s.quantity := by
  intro s' hs'
  rcases List.mem_map.mp hs' with ⟨s, hs, rfl⟩
  split
  · exact hq
  · exact h s hs

end MCPServer

namespace MCPServer

/-- The state invariant behind the ledger identity: generated product ids
are fresh, every product has a stock row, quantities are non-negative, and
every product's quantity equals the sum of its movement deltas. -/
structure Inv (db : DB) : Prop where
  freshP : ∀ p ∈ db.products, p.id < db.nextProductId
  freshS : ∀ s ∈ db.stock, s.productId < db.nextProductId
  freshM : ∀ m ∈ db.movements, m.productId < db.nextProductId
  hasStock : ∀ p ∈ db.products, (findStock db p.id).isSome = true
  nonneg : ∀ s ∈ db.stock, 0 ≤ s.quantity
  ledger : ∀ p ∈ db.products, stockQty db p.id = some (sumDeltas db.movements p.id)

/-- The empty store satisfies the invariant. -/
theorem Inv_empty : Inv emptyDB := by
  constructor <;> intro x hx <;> cases hx

/-- `Inv` only looks at the products, stock, movements and product-id
counter. -/
theorem Inv_congr (db db' : DB) (hp : db'.products = db.products)
    (hs : db'.stock = db.stock) (hm : db'.movements = db.movements)
    (hn : db'.nextProductId = db.nextProductId) (h : Inv db) : Inv db' := by
  constructor
  · rw [hp, hn]; exact h.freshP
  · rw [hs, hn]; exact h.freshS
  · rw [hm, hn]; exact h.freshM
  · rw [hp]
    intro p hmem
    show (db'.stock.find? (fun s => s.productId == p.id)).isSome = true
    rw [hs]
    exact h.hasStock p hmem
  · rw [hs]; exact h.nonneg
  · rw [hp, hm]
    intro p hmem
    show (db'.stock.find? (fun s => s.productId == p.id)).map StockRow.quantity = _
    rw [hs]
    exact h.ledger p hmem

/-- `add_stock` preserves the invariant: every branch either leaves the
state unchanged or applies the delta to both the quantity and the
movement log. -/
theorem Inv_addStock (db : DB) (sku : String) (delta : Int) (reason : String)
    (hInv : Inv db) : Inv (add_stock db sku delta reason).1 := by
  by_cases hd : (delta == 0) = true
  · have he : add_stock db sku delta reason = (db, .zeroDelta) := by
      simp [add_stock, hd]
    rw [he]; exact hInv
  · have hd' : (delta == 0) = false := by simpa using hd
    cases hp : findProduct db sku with
    | none =>
        have he : add_stock db sku delta reason = (db, .skuNotFound) := by
          simp [add_stock, hd', hp, Bool.false_eq_true, if_false]
        rw [he]; exact hInv
    | some prod =>
        have hmem : prod ∈ db.products := List.mem_of_find?_eq_some hp
        rcases Option.isSome_iff_exists.mp (hInv.hasStock prod hmem) with ⟨s, hs⟩
        have hcur : ((findStock db prod.id).map StockRow.quantity).getD 0 = s.quantity := by
          rw [hs]; rfl
        by_cases hneg : s.quantity + delta < 0
        · have he := add_stock_insufficient db sku delta reason prod hp hd'
            (by rw [hcur]; omega)
          rw [he]; exact hInv
        · have key := add_stock_applies db sku delta reason prod hp hd'
            (by rw [hcur]; omega)
          rw [hcur] at key
          rw [key]
          have hsum : sumDeltas db.movements prod.id = s.quantity := by
            have := hInv.ledger prod hmem
            rw [show stockQty db prod.id = some s.quantity by rw [stockQty, hs]; rfl] at this
            exact (Option.some.inj this).symm
          constructor
          · exact hInv.freshP
          · exact fresh_setStockQty _ _ _ _ hInv.freshS
          · intro m hm
            rcases List.mem_append.mp hm with h1 | h1
            · exact hInv.freshM m h1
            · rcases List.mem_singleton.mp h1 with rfl
              exact hInv.freshP prod hmem
          · intro p hpm
            show ((setStockQty db.stock prod.id (s.quantity + delta)).find?
              (fun x => x.productId == p.id)).isSome = true
            rw [find_setStockQty_isSome]
            exact hInv.hasStock p hpm
          · exact nonneg_setStockQty _ _ _ (by omega) hInv.nonneg
          · intro p hpm
            by_cases hpid : p.id = prod.id
            · show ((setStockQty db.stock prod.id (s.quantity + delta)).find?
                (fun x => x.productId == p.id)).map StockRow.quantity = _
              rw [hpid, find_setStockQty,
                show db.stock.find? (fun x => x.productId == prod.id) = some s from hs]
              rw [sumDeltas_append]
              simp only [beq_self_eq_true, if_true, hsum]
              rfl
            · show ((setStockQty db.stock prod.id (s.quantity + delta)).find?
                (fun x => x.productId == p.id)).map StockRow.quantity = _
              rw [find_setStockQty_ne _ _ _ _ hpid, sumDeltas_append]
              have : (({ productId := prod.id, delta := delta, reason := reason } :
                  StockMovement).productId == p.id) = false := by
                simp only [beq_eq_false_iff_ne]
                exact fun hc => hpid hc.symm
              rw [this]
              simp only [Bool.false_eq_true, if_false, add_zero]
              exact hInv.ledger p hpm

end MCPServer

namespace MCPServer

/-- `reserve_for_order` preserves the invariant: the success branch
decrements the quantity and logs the matching `-qty` movement. -/
theorem Inv_reserve (db : DB) (oid : Nat) (hInv : Inv db) :
    Inv (reserve_for_order db oid).1 := by
  cases ho : findOrder db oid with
  | none =>
      have he : reserve_for_order db oid = (db, .orderNotFound) := by
        simp [reserve_for_order, ho]
      rw [he]; exact hInv
  | some o =>
      by_cases hst : (o.status == Status.PAID || o.status == Status.CANCELLED
          || o.status == Status.FAILED) = true
      · have he : reserve_for_order db oid = (db, .orderNotReservable o.status) := by
          simp [reserve_for_order, ho, hst]
        rw [he]; exact hInv
      · have hst' : (o.status == Status.PAID || o.status == Status.CANCELLED
            || o.status == Status.FAILED) = false := by simpa using hst
        cases hi : findItem db oid with
        | none =>
            have he : reserve_for_order db oid = (db, .orderHasNoItems) := by
              simp [reserve_for_order, ho, hst', Bool.false_eq_true, if_false, hi]
            rw [he]; exact hInv
        | some item =>
            cases hp : findProduct db item.sku with
            | none =>
                have he : reserve_for_order db oid = (db, .skuNotFound item.sku) := by
                  simp [reserve_for_order, ho, hst', Bool.false_eq_true, if_false, hi, hp]
                rw [he]; exact hInv
            | some prod =>
                have hmem : prod ∈ db.products := List.mem_of_find?_eq_some hp
                rcases Option.isSome_iff_exists.mp (hInv.hasStock prod hmem) with ⟨s, hs⟩
                have hcur : ((findStock db prod.id).map StockRow.quantity).getD 0
                    = s.quantity := by rw [hs]; rfl
                by_cases hlt : s.quantity < item.qty
                · have he : reserve_for_order db oid =
                      (db, .insufficientStock s.quantity item.qty) := by
                    simp only [reserve_for_order, ho, hst', Bool.false_eq_true, if_false,
                      hi, hp, hcur]
                    rw [if_pos hlt]
                  rw [he]; exact hInv
                · have key := reserve_for_order_reserves db oid o item prod ho hst' hi hp
                    (by rw [hcur]; omega)
                  rw [hcur] at key
                  rw [key]
                  have hsum : sumDeltas db.movements prod.id = s.quantity := by
                    have := hInv.ledger prod hmem
                    rw [show stockQty db prod.id = some s.quantity by
                      rw [stockQty, hs]; rfl] at this
                    exact (Option.some.inj this).symm
                  constructor
                  · exact hInv.freshP
                  · exact fresh_setStockQty _ _ _ _ hInv.freshS
                  · intro m hm
                    rcases List.mem_append.mp hm with h1 | h1
                    · exact hInv.freshM m h1
                    · rcases List.mem_singleton.mp h1 with rfl
                      exact hInv.freshP prod hmem
                  · intro p hpm
                    show ((setStockQty db.stock prod.id (s.quantity - item.qty)).find?
                      (fun x => x.productId == p.id)).isSome = true
                    rw [find_setStockQty_isSome]
                    exact hInv.hasStock p hpm
                  · exact nonneg_setStockQty _ _ _ (by omega) hInv.nonneg
                  · intro p hpm
                    by_cases hpid : p.id = prod.id
                    · show ((setStockQty db.stock prod.id (s.quantity - item.qty)).find?
                        (fun x => x.productId == p.id)).map StockRow.quantity = _
                      rw [hpid, find_setStockQty,
                        show db.stock.find? (fun x => x.productId == prod.id) = some s from hs]
                      rw [sumDeltas_append]
                      simp only [beq_self_eq_true, if_true, hsum]
                      show some (s.quantity - item.qty) = some (s.quantity + -item.qty)
                      rw [Int.sub_eq_add_neg]
                    · show ((setStockQty db.stock prod.id (s.quantity - item.qty)).find?
                        (fun x => x.productId == p.id)).map StockRow.quantity = _
                      rw [find_setStockQty_ne _ _ _ _ hpid, sumDeltas_append]
                      have hmv : ((prod.id : Nat) == p.id) = false := by
                        simp only [beq_eq_false_iff_ne]
                        exact fun hc => hpid hc.symm
                      dsimp only
                      rw [hmv]
                      simp only [Bool.false_eq_true, if_false, add_zero]
                      exact hInv.ledger p hpm

end MCPServer

namespace MCPServer

/-- `sumDeltas` distributes over list append. -/
theorem sumDeltas_append_list (l1 l2 : List StockMovement) (pid : Nat) :
    sumDeltas (l1 ++ l2) pid = sumDeltas l1 pid + sumDeltas l2 pid := by
  simp [sumDeltas, List.filter_append]

/-- Inserting a brand-new product together with its stock row and (for a
positive quantity) its `"initial"` movement preserves the invariant. -/
theorem Inv_createProduct_fresh_aux (db : DB) (sku name : String) (q : Int)
    (hq0 : 0 ≤ q) (hInv : Inv db) :
    Inv { db with
        products := db.products ++ [{ id := db.nextProductId, sku := sku, name := name }],
        stock := db.stock ++ [{ productId := db.nextProductId, quantity := q }],
        movements := db.movements ++
          (if q > 0 then
            [{ productId := db.nextProductId, delta := q, reason := "initial" }]
          else []),
        nextProductId := db.nextProductId + 1 } := by
  have hfS : db.stock.find? (fun s => s.productId == db.nextProductId) = none := by
    apply List.find?_eq_none.mpr
    intro x hx
    have := hInv.freshS x hx
    simp only [beq_iff_eq]
    omega
  have hmvP : ∀ m ∈ (if q > 0 then
      [({ productId := db.nextProductId, delta := q, reason := "initial" } : StockMovement)]
    else []), m.productId = db.nextProductId := by
    intro m hm
    split at hm
    · rcases List.mem_singleton.mp hm with rfl; rfl
    · cases hm
  have hsum_new : sumDeltas (if q > 0 then
      [({ productId := db.nextProductId, delta := q, reason := "initial" } : StockMovement)]
    else []) db.nextProductId = q := by
    by_cases hq : q > 0
    · rw [if_pos hq]
      simp [sumDeltas, List.filter_cons]
    · rw [if_neg hq]
      have : q = 0 := by omega
      simp [sumDeltas, this]
  constructor
  · intro p hp
    rcases List.mem_append.mp hp with h1 | h1
    · exact Nat.lt_succ_of_lt (hInv.freshP p h1)
    · rcases List.mem_singleton.mp h1 with rfl
      exact Nat.lt_succ_self _
  · intro s hs
    rcases List.mem_append.mp hs with h1 | h1
    · exact Nat.lt_succ_of_lt (hInv.freshS s h1)
    · rcases List.mem_singleton.mp h1 with rfl
      exact Nat.lt_succ_self _
  · intro m hm
    rcases List.mem_append.mp hm with h1 | h1
    · exact Nat.lt_succ_of_lt (hInv.freshM m h1)
    · rw [hmvP m h1]
      exact Nat.lt_succ_self _
  · intro p hp
    rcases List.mem_append.mp hp with h1 | h1
    · rcases Option.isSome_iff_exists.mp (hInv.hasStock p h1) with ⟨t, ht⟩
      show ((db.stock ++ [({ productId := db.nextProductId, quantity := q } : StockRow)]).find? (fun s => s.productId == p.id)).isSome = true
      rw [List.find?_append,
        show db.stock.find? (fun s => s.productId == p.id) = some t from ht]
      rfl
    · rcases List.mem_singleton.mp h1 with rfl
      show ((db.stock ++ [({ productId := db.nextProductId, quantity := q } : StockRow)]).find?
        (fun s => s.productId == db.nextProductId)).isSome = true
      rw [find_append_single _ _ _ hfS]
      simp
  · intro s hs
    rcases List.mem_append.mp hs with h1 | h1
    · exact hInv.nonneg s h1
    · rcases List.mem_singleton.mp h1 with rfl
      exact hq0
  · intro p hp
    rcases List.mem_append.mp hp with h1 | h1
    · cases ht : db.stock.find? (fun s => s.productId == p.id) with
      | none =>
          have := hInv.ledger p h1
          rw [show stockQty db p.id =
            Option.map StockRow.quantity (db.stock.find? (fun s => s.productId == p.id))
            from rfl, ht] at this
          cases this
      | some t =>
          show ((db.stock ++ [({ productId := db.nextProductId, quantity := q } : StockRow)]).find? (fun s => s.productId == p.id)).map
            StockRow.quantity = _
          rw [List.find?_append, ht]
          have hold := hInv.ledger p h1
          rw [show stockQty db p.id =
            Option.map StockRow.quantity (db.stock.find? (fun s => s.productId == p.id))
            from rfl, ht] at hold
          rw [sumDeltas_append_list]
          have hz : sumDeltas (if q > 0 then
              [({ productId := db.nextProductId, delta := q, reason := "initial" } :
                StockMovement)] else []) p.id = 0 := by
            apply sumDeltas_zero_of_fresh
            intro m hm
            rw [hmvP m hm]
            have := hInv.freshP p h1
            omega
          rw [hz, add_zero]
          exact hold
    · rcases List.mem_singleton.mp h1 with rfl
      show ((db.stock ++ [({ productId := db.nextProductId, quantity := q } : StockRow)]).find?
        (fun s => s.productId == db.nextProductId)).map StockRow.quantity = _
      rw [find_append_single _ _ _ hfS]
      rw [sumDeltas_append_list]
      have hz : sumDeltas db.movements db.nextProductId = 0 := by
        apply sumDeltas_zero_of_fresh
        intro m hm
        have := hInv.freshM m hm
        omega
      rw [hz, hsum_new]
      simp

end MCPServer

namespace MCPServer

/-- `create_product` preserves the invariant provided the call is
ledger-safe: the SKU is fresh, or `initialQty = 0` (a repeated upsert with
positive quantity would log a movement without moving the quantity by that
amount). -/
theorem Inv_createProduct (db : DB) (sku name : String) (q : Int) (hInv : Inv db)
    (hsafe : ((findProduct db sku).isNone || (q == 0)) = true) :
    Inv (create_product db sku name q).1 := by
  by_cases hneg : q < 0
  · have he : create_product db sku name q = (db, .validationError) := by
      simp [create_product, hneg]
    rw [he]; exact hInv
  · have hq0 : 0 ≤ q := by omega
    cases hp : findProduct db sku with
    | none =>
        have hfS : db.stock.find? (fun s => s.productId == db.nextProductId) = none := by
          apply List.find?_eq_none.mpr
          intro x hx
          have := hInv.freshS x hx
          simp only [beq_iff_eq]
          omega
        by_cases hq : q > 0
        · have he : create_product db sku name q =
              ({ db with
                  products := db.products ++
                    [{ id := db.nextProductId, sku := sku, name := name }],
                  stock := db.stock ++
                    [{ productId := db.nextProductId, quantity := q }],
                  movements := db.movements ++
                    [{ productId := db.nextProductId, delta := q, reason := "initial" }],
                  nextProductId := db.nextProductId + 1 },
               .ok { id := db.nextProductId, sku := sku, name := name } q) := by
            simp only [create_product, if_neg hneg, hp, findStock, hfS, if_pos hq]
          rw [he]
          have := Inv_createProduct_fresh_aux db sku name q hq0 hInv
          rw [if_pos hq] at this
          exact this
        · have hqz : q = 0 := by omega
          subst hqz
          have he : create_product db sku name 0 =
              ({ db with
                  products := db.products ++
                    [{ id := db.nextProductId, sku := sku, name := name }],
                  stock := db.stock ++
                    [{ productId := db.nextProductId, quantity := 0 }],
                  nextProductId := db.nextProductId + 1 },
               .ok { id := db.nextProductId, sku := sku, name := name } 0) := by
            simp only [create_product, if_neg hneg, hp, findStock, hfS,
              if_neg (lt_irrefl (0 : Int))]
          rw [he]
          have := Inv_createProduct_fresh_aux db sku name 0 le_rfl hInv
          rw [if_neg (lt_irrefl (0 : Int)), List.append_nil] at this
          exact this
    | some p0 =>
        have hq : (q == 0) = true := by
          rcases Bool.or_eq_true_iff.mp hsafe with h | h
          · rw [hp] at h; cases h
          · exact h
        have hqz : q = 0 := by simpa using hq
        subst hqz
        have hmem : p0 ∈ db.products := List.mem_of_find?_eq_some hp
        rcases Option.isSome_iff_exists.mp (hInv.hasStock p0 hmem) with ⟨s0, hs0⟩
        have hfs : db.stock.find? (fun s => s.productId == p0.id) = some s0 := hs0
        have he : create_product db sku name 0 =
            ({ db with
                products := db.products.map (fun x =>
                  if x.sku == sku then { x with name := name } else x),
                stock := db.stock.map (fun s =>
                  if s.productId == p0.id then { s with quantity := max s.quantity 0 }
                  else s) },
             .ok { p0 with name := name } 0) := by
          simp only [create_product, if_neg hneg, hp, findStock, hfs,
            if_neg (lt_irrefl (0 : Int))]
        have hstq : db.stock.map (fun s =>
            if s.productId == p0.id then { s with quantity := max s.quantity 0 }
            else s) = db.stock := by
          have hid : ∀ s ∈ db.stock, (if s.productId == p0.id then
              ({ s with quantity := max s.quantity 0 } : StockRow) else s) = id s := by
            intro s hs
            split
            · have hnn := hInv.nonneg s hs
              show ({ s with quantity := max s.quantity 0 } : StockRow) = s
              rw [max_eq_left hnn]
            · rfl
          rw [List.map_congr_left hid, List.map_id]
        rw [he, hstq]
        have hidp : ∀ x : Product,
            (if x.sku == sku then ({ x with name := name } : Product) else x).id = x.id := by
          intro x
          split <;> rfl
        constructor
        · intro p hpm
          rcases List.mem_map.mp hpm with ⟨x, hx, rfl⟩
          rw [hidp x]
          exact hInv.freshP x hx
        · exact hInv.freshS
        · exact hInv.freshM
        · intro p hpm
          rcases List.mem_map.mp hpm with ⟨x, hx, rfl⟩
          show ((db.stock.find? (fun s => s.productId ==
            (if x.sku == sku then ({ x with name := name } : Product) else x).id))).isSome
            = true
          rw [hidp x]
          exact hInv.hasStock x hx
        · exact hInv.nonneg
        · intro p hpm
          rcases List.mem_map.mp hpm with ⟨x, hx, rfl⟩
          show (db.stock.find? (fun s => s.productId ==
            (if x.sku == sku then ({ x with name := name } : Product) else x).id)).map
            StockRow.quantity = some (sumDeltas db.movements
            (if x.sku == sku then ({ x with name := name } : Product) else x).id)
          rw [hidp x]
          exact hInv.ledger x hx

end MCPServer

namespace MCPServer

/-- `release_stock` with no active reservation leaves the state untouched. -/
theorem release_stock_of_no_active (db : DB) (oid : Nat)
    (h : findActiveReservation db oid = none) :
    release_stock db oid = (db, .notReleased) := by
  unfold release_stock
  rw [h]

/-- A tool call is *ledger-safe* in a state when it is not one of the two
movement-skipping mutations: a `releaseStock` that actually finds an active
reservation (the code restores stock without logging a movement), or a
`createProduct` with positive `initialQty` on an already-existing SKU (the
code logs `initialQty` even though the quantity only moves to the max). -/
def stepSafe (db : DB) : Op → Bool
  | .releaseStock oid => (findActiveReservation db oid).isNone
  | .createProduct sku _ q => (findProduct db sku).isNone || q == 0
  | _ => true

/-- Every call of the trace is ledger-safe in the state it executes in. -/
def safeFrom (db : DB) : List Op → Bool
  | [] => true
  | op :: ops => stepSafe db op && safeFrom (step db op) ops

/-- One ledger-safe tool call preserves the invariant. -/
theorem Inv_step (db : DB) (op : Op) (hInv : Inv db)
    (hsafe : stepSafe db op = true) : Inv (step db op) := by
  cases op with
  | createProduct s n q => exact Inv_createProduct db s n q hInv hsafe
  | getStock s => exact hInv
  | addStock s d r => exact Inv_addStock db s d r hInv
  | createOrder s q =>
      show Inv (create_order db s q).1
      unfold create_order
      split
      · exact hInv
      · exact Inv_congr db _ rfl rfl rfl rfl hInv
  | getOrder o => exact hInv
  | reserveForOrder oid => exact Inv_reserve db oid hInv
  | releaseStock oid =>
      have h : findActiveReservation db oid = none := by
        simpa [stepSafe, Option.isNone_iff_eq_none] using hsafe
      show Inv (release_stock db oid).1
      rw [release_stock_of_no_active db oid h]
      exact hInv
  | markPaid o => exact Inv_congr db _ rfl rfl rfl rfl hInv
  | markFailed o => exact Inv_congr db _ rfl rfl rfl rfl hInv

/-- The invariant holds after any ledger-safe trace. -/
theorem Inv_safeFrom (ops : List Op) (db : DB) (hInv : Inv db)
    (hsafe : safeFrom db ops = true) : Inv (ops.foldl step db) := by
  induction ops generalizing db with
  | nil => exact hInv
  | cons op ops ih =>
      rw [safeFrom, Bool.and_eq_true] at hsafe
      exact ih (step db op) (Inv_step db op hInv hsafe.1) hsafe.2

/-- The ledger identity is the last component of the invariant. -/
theorem ledgerOK_of_Inv (db : DB) (h : Inv db) : ledgerOK db = true := by
  rw [ledgerOK, List.all_eq_true]
  intro p hp
  rw [beq_iff_eq]
  exact h.ledger p hp

/-- C8, amended.  The ledger identity fails in general (see the
counterexample: `release_stock` restores stock without logging a movement,
and a repeated `create_product` with positive `initialQty` logs a movement
without moving the stock by that amount — the latter already flagged in
the spec's open question).  It does hold after every trace from the empty
store whose calls are all ledger-safe: no `releaseStock` call finds an
active reservation and every `createProduct` call has a fresh SKU or a
zero `initialQty`.  Then each product's quantity equals the sum of its
movement deltas. -/
theorem C8_amended (ops : List Op) (hsafe : safeFrom emptyDB ops = true) :
    ledgerOK (run ops) = true :=
  ledgerOK_of_Inv _ (Inv_safeFrom ops emptyDB Inv_empty hsafe)

/-- A ledger-safe trace exercising every operation kind. -/
def safeDemoTrace : List Op :=
  [.createProduct "A" "Widget" 5, .addStock "A" 3 "restock", .createOrder "A" 2,
   .reserveForOrder 0, .markPaid 0, .addStock "A" (-1) "shrink", .getStock "A",
   .createOrder "A" 1, .reserveForOrder 1, .markFailed 1, .releaseStock 2]

/-- Witness for C8 on a concrete ledger-safe trace. -/
theorem C8_witness :
    safeFrom emptyDB safeDemoTrace = true ∧ ledgerOK (run safeDemoTrace) = true :=
  ⟨by decide, C8_amended safeDemoTrace (by decide)⟩

end MCPServer
